import Mathlib

/-!
Shallow embedding of `src/DeepResearch.py` (class `StockResearchAgent`).

Text is modelled as `List Char` (`Str`). The external text-generation
capability (`self.client.messages.create`) is modelled as a function
`gen : Nat → Str → Option Str` taking the index of the call inside the
stage and the prompt, and returning the generated text, or `none` when the
call raises; a `none` propagates like the Python exception to the stage's
`except` clause, which produces the stage's fallback value.
`datetime.now().isoformat()` is modelled as an explicit `now : Str`
parameter. Python dicts (insertion-ordered) are modelled as association
lists `List (Str × α)` with insert-or-replace semantics.
-/

abbrev Str := List Char

/-- Shorthand turning a Lean string literal into the `List Char` text model. -/
def lc (s : String) : Str := s.toList

/-- The whitespace characters stripped by Python `str.strip()` (ASCII range). -/
def isSpaceChar (c : Char) : Bool :=
  c = ' ' || c = '\t' || c = '\n' || c = '\r' || c = Char.ofNat 11 || c = Char.ofNat 12

/-- Python `line.strip()`: drop whitespace from both ends. -/
def stripStr (s : Str) : Str :=
  ((s.dropWhile isSpaceChar).reverse.dropWhile isSpaceChar).reverse

/-- Python `s.lower()` (ASCII text). -/
def lowerStr (s : Str) : Str := s.map Char.toLower

/-- Python `s.upper()` (ASCII text). -/
def upperStr (s : Str) : Str := s.map Char.toUpper

/-- Python `s.title()`: a letter is upper-cased when the previous character is
not a letter, lower-cased otherwise. The flag is "capitalize the next letter". -/
def titleGo : Bool → Str → Str
  | _, [] => []
  | b, ch :: rest => (if b then ch.toUpper else ch.toLower) :: titleGo (!ch.isAlpha) rest

/-- Python `s.title()`. -/
def titleStr (s : Str) : Str := titleGo true s

/-- Python `s.replace(pat, repl)`, on fuel: each step consumes at least one
character of the scanned text, so `s.length` steps always finish the scan.
The fuel keeps the recursion structural (hence kernel-reducible). -/
def replaceAllGo (pat repl : Str) : Nat → Str → Str
  | _, [] => []
  | 0, s => s
  | fuel + 1, c :: rest =>
    if pat.isPrefixOf (c :: rest) && !pat.isEmpty then
      repl ++ replaceAllGo pat repl fuel (List.drop (pat.length - 1) rest)
    else
      c :: replaceAllGo pat repl fuel rest

/-- Python `s.replace(pat, repl)`: replace every non-overlapping occurrence,
left to right. `pat` is non-empty at every call site of the source. -/
def replaceAll (pat repl : Str) (s : Str) : Str := replaceAllGo pat repl s.length s

/-- Python `text.split('\n')`. -/
def splitOnNL : Str → List Str
  | [] => [[]]
  | c :: cs =>
    if c = '\n' then [] :: splitOnNL cs
    else
      match splitOnNL cs with
      | [] => [[c]]
      | l :: ls => (c :: l) :: ls

/-- Python `', '.join(xs)` and friends. -/
def joinWith (sep : Str) (xs : List Str) : Str := List.intercalate sep xs

/-- Insert-or-replace into an insertion-ordered association list, the way
assignment `d[k] = v` behaves on a Python dict. -/
def dictInsert (k : Str) (v : α) : List (Str × α) → List (Str × α)
  | [] => [(k, v)]
  | (k', v') :: rest => if k' = k then (k, v) :: rest else (k', v') :: dictInsert k v rest

/-- Python `d.get(k, default)` on the association-list model of a dict. -/
def dictGetD (l : List (Str × α)) (k : Str) (default : α) : α :=
  match l with
  | [] => default
  | (k', v) :: rest => if k' = k then v else dictGetD rest k default

/-- Python `k in d` on the association-list model of a dict. -/
def dictHasKey (l : List (Str × α)) (k : Str) : Bool :=
  match l with
  | [] => false
  | (k', _) :: rest => k' = k || dictHasKey rest k

/-! ## The Planner's bullet-accumulation parser
(`_create_research_plan`, lines 107–119 of the source.)

State of the streaming parser: the list of completed topics and the
currently accumulating topic (`""` encoded as `[]`). -/

/-- A stripped line opens a bullet for the Planner: `line.startswith('- ') or
line.startswith('* ')`. -/
def plannerIsBullet (line : Str) : Bool :=
  (lc "- ").isPrefixOf line || (lc "* ").isPrefixOf line

/-- One line of the Planner's loop body. -/
def plannerStep (st : List Str × Str) (rawLine : Str) : List Str × Str :=
  let line := stripStr rawLine
  let topics := st.1
  let current_topic := st.2
  if plannerIsBullet line then
    (if current_topic ≠ [] then topics ++ [current_topic] else topics, line.drop 2)
  else if line ≠ [] ∧ current_topic ≠ [] then
    (topics, current_topic ++ [' '] ++ line)
  else
    (topics, current_topic)

/-- The Planner's whole parse of a response split into lines: run the loop,
then flush the accumulating topic. -/
def plannerParse (lines : List Str) : List Str :=
  let st := lines.foldl plannerStep ([], [])
  if st.2 ≠ [] then st.1 ++ [st.2] else st.1

/-! ## The Extractor's bullet-accumulation parser
(`_extract_information`, lines 236–248 of the source.) -/

/-- A stripped line opens a bullet for the Extractor: `line.startswith('- ') or
line.startswith('* ') or line.startswith('• ')`. -/
def extractorIsBullet (line : Str) : Bool :=
  (lc "- ").isPrefixOf line || (lc "* ").isPrefixOf line || (lc "• ").isPrefixOf line

/-- One line of the Extractor's loop body; a new bullet's text is
`line[2:].strip()`. -/
def extractorStep (st : List Str × Str) (rawLine : Str) : List Str × Str :=
  let line := stripStr rawLine
  let findings := st.1
  let current_finding := st.2
  if extractorIsBullet line then
    (if current_finding ≠ [] then findings ++ [current_finding] else findings,
      stripStr (line.drop 2))
  else if line ≠ [] ∧ current_finding ≠ [] then
    (findings, current_finding ++ [' '] ++ line)
  else
    (findings, current_finding)

/-- The Extractor's whole parse of a response split into lines. -/
def extractorParse (lines : List Str) : List Str :=
  let st := lines.foldl extractorStep ([], [])
  if st.2 ≠ [] then st.1 ++ [st.2] else st.1

/-! ## Data model -/

/-- One retrieved "document" (`_retrieve_information`). -/
structure Doc where
  id : Str
  topic : Str
  content : Str
  source : Str
  retrieval_date : Str
  deriving DecidableEq

/-- One extracted finding (`_extract_information`); `confidence` is the
Python float `0.9` / `0.5`, both exactly representable, modelled in `ℚ`. -/
structure Finding where
  content : Str
  topic : Str
  source_document : Str
  confidence : ℚ
  deriving DecidableEq

/-- The research plan built by `_create_research_plan`. -/
structure ResearchPlan where
  stock_symbol : Str
  focus_areas : List Str
  research_topics : List Str
  creation_date : Str
  deriving DecidableEq

/-- The synthesis built by `_synthesize_information`; `sections` is the
insertion-ordered dict from section key to section narrative. -/
structure Synthesis where
  title : Str
  stock_symbol : Str
  executive_summary : Str
  sections : List (Str × Str)
  creation_date : Str
  deriving DecidableEq

/-- The value built by `_generate_insights`: in the source a dict
`{"stock_symbol": …, "insights": {"swot_analysis": …,
"investment_considerations": …}, "generation_date": …}`; the two keys of the
inner `insights` dict, which are present on both the success and the fallback
path, are modelled as the two middle fields. -/
structure Insights where
  stock_symbol : Str
  swot_analysis : Str
  investment_considerations : Str
  generation_date : Str
  deriving DecidableEq

/-! ## 1. Planner: `_create_research_plan` -/

/-- The default focus areas used when `focus_areas is None`. -/
def defaultFocusAreas : List Str :=
  [lc "business model", lc "market position", lc "financial performance",
    lc "competitive landscape", lc "future outlook"]

/-- The planning prompt (f-string of lines 82–94 of the source). -/
def planningPrompt (stock_symbol : Str) (focus_areas : List Str) : Str :=
  lc "\n        Create a research plan for analyzing " ++ stock_symbol ++
  lc " stock. \n        \n        Focus areas:\n        " ++
  joinWith (lc ", ") focus_areas ++
  lc "\n        \n        Your task is to:\n        1. Identify the key aspects that should be researched about this stock\n        2. Outline specific questions that need to be answered\n        3. Suggest the types of information that would be most relevant\n        \n        Provide your response as clear bullet points for each area.\n        "

/-- `_create_research_plan(stock_symbol, focus_areas)`: one generation call,
the bullet parse of its response capped to the first 10 topics; on a failed
call, the fixed three default topics. -/
def create_research_plan (gen : Nat → Str → Option Str) (stock_symbol : Str)
    (focusAreasArg : Option (List Str)) (now : Str) : ResearchPlan :=
  let focus_areas := focusAreasArg.getD defaultFocusAreas
  match gen 0 (planningPrompt stock_symbol focus_areas) with
  | some response_content =>
    { stock_symbol := stock_symbol
      focus_areas := focus_areas
      research_topics := (plannerParse (splitOnNL response_content)).take 10
      creation_date := now }
  | none =>
    { stock_symbol := stock_symbol
      focus_areas := focus_areas
      research_topics := [lc "Company overview", lc "Financial performance",
        lc "Market position"]
      creation_date := now }

/-! ## 2. Retriever: `_retrieve_information` -/

/-- The retrieval prompt for one topic (f-string of lines 154–164). -/
def retrievalPrompt (stock_symbol topic : Str) : Str :=
  lc "\n                Provide detailed information about " ++ stock_symbol ++
  lc " focusing on:\n                \n                " ++ topic ++
  lc "\n                \n                Please provide factual information based on your knowledge. \n                If specific data points are mentioned, acknowledge that these are approximations\n                based on your training data and not current market data.\n                \n                Format your response as a structured document with clearly marked sections.\n                "

/-- The document id `f"doc_{stock_symbol}_{i+1}"`. -/
def docIdOf (stock_symbol : Str) (n : Nat) : Str :=
  lc "doc_" ++ stock_symbol ++ lc "_" ++ lc (toString n)

/-- The single placeholder document built by the Retriever's `except` branch. -/
def fallbackDoc (stock_symbol now : Str) : Doc :=
  { id := lc "doc_" ++ stock_symbol ++ lc "_fallback"
    topic := lc "General Information"
    content := lc "General information about " ++ stock_symbol ++ lc "."
    source := lc "Fallback Source"
    retrieval_date := now }

/-- The topics the Retriever iterates over: `research_topics`, falling back to
`focus_areas` when that list is empty (both keys are always present on the
typed plan), sliced to the first 5 by `subtopics[:5]` at the loop header. -/
def effectiveSubtopics (research_plan : ResearchPlan) : List Str :=
  (if research_plan.research_topics = [] then research_plan.focus_areas
    else research_plan.research_topics).take 5

/-- The Retriever's `for i, topic in enumerate(subtopics[:5])` loop, with the
call of iteration `i` indexed `i`. `none` models the exception a failed call
raises: it propagates past the loop, discarding the documents already built. -/
def retrieveDocs (gen : Nat → Str → Option Str) (stock_symbol now : Str) :
    Nat → List Str → Option (List Doc)
  | _, [] => some []
  | i, topic :: rest =>
    match gen i (retrievalPrompt stock_symbol topic) with
    | none => none
    | some response_content =>
      match retrieveDocs gen stock_symbol now (i + 1) rest with
      | none => none
      | some documents =>
        some ({ id := docIdOf stock_symbol (i + 1)
                topic := topic
                content := response_content
                source := lc "Claude Knowledge Base"
                retrieval_date := now } :: documents)

/-- `_retrieve_information(stock_symbol, research_plan)`: one document per
processed topic, or the single placeholder document when any call raised. -/
def retrieve_information (gen : Nat → Str → Option Str) (stock_symbol : Str)
    (research_plan : ResearchPlan) (now : Str) : List Doc :=
  match retrieveDocs gen stock_symbol now 0 (effectiveSubtopics research_plan) with
  | some documents => documents
  | none => [fallbackDoc stock_symbol now]

/-! ## 3. Extractor: `_extract_information` -/

/-- The extraction prompt for one document (f-string of lines 210–224). -/
def extractionPrompt (stock_symbol : Str) (document : Doc) : Str :=
  lc "\n                Extract key information from the following document about " ++
  stock_symbol ++
  lc ".\n                \n                DOCUMENT TOPIC: " ++ document.topic ++
  lc "\n                \n                CONTENT:\n                " ++ document.content ++
  lc "\n                \n                Extract the following:\n                1. Key facts and figures\n                2. Important statements or claims\n                3. Limitations of the information\n                \n                Format each piece of information as a separate bullet point.\n                "

/-- The Extractor's `for doc_id, document in documents.items()` loop, one
generation call per document; `none` models an exception aborting the stage. -/
def extractLoop (gen : Nat → Str → Option Str) (stock_symbol : Str) :
    Nat → List Doc → Option (List (Str × List Finding))
  | _, [] => some []
  | i, document :: rest =>
    match gen i (extractionPrompt stock_symbol document) with
    | none => none
    | some response_content =>
      let findings := extractorParse (splitOnNL response_content)
      match extractLoop gen stock_symbol (i + 1) rest with
      | none => none
      | some tail =>
        some ((document.id,
          findings.map fun finding =>
            { content := finding
              topic := document.topic
              source_document := document.id
              confidence := 9 / 10 }) :: tail)

/-- `_extract_information(documents, research_plan)`: per document the parsed
findings at confidence 0.9; if any call raised, exactly one synthetic finding
per document at the degraded confidence 0.5. -/
def extract_information (gen : Nat → Str → Option Str) (documents : List Doc)
    (research_plan : ResearchPlan) : List (Str × List Finding) :=
  match extractLoop gen research_plan.stock_symbol 0 documents with
  | some extracted_info => extracted_info
  | none =>
    documents.map fun doc =>
      (doc.id,
        [{ content := lc "Information about " ++ doc.topic
           topic := doc.topic
           source_document := doc.id
           confidence := 1 / 2 }])

/-! ## 4. Synthesizer: `_synthesize_information` -/

/-- `findings_by_topic[topic].append(finding['content'])`, creating the key at
the back of the (insertion-ordered) dict when absent. -/
def addFinding (findings_by_topic : List (Str × List Str)) (topic content : Str) :
    List (Str × List Str) :=
  if dictHasKey findings_by_topic topic then
    findings_by_topic.map fun p => if p.1 = topic then (p.1, p.2 ++ [content]) else p
  else
    findings_by_topic ++ [(topic, [content])]

/-- Group the flattened findings by topic (lines 290–295). -/
def findingsByTopic (all_findings : List Finding) : List (Str × List Str) :=
  all_findings.foldl (fun acc f => addFinding acc f.topic f.content) []

/-- The labelled bullet block `formatted_findings` (lines 298–302). -/
def formattedFindings (findings_by_topic : List (Str × List Str)) : Str :=
  findings_by_topic.foldl
    (fun acc p =>
      acc ++ lc "\n\n" ++ upperStr p.1 ++ lc ":\n" ++
        p.2.foldl (fun a finding => a ++ lc "- " ++ finding ++ lc "\n") [])
    []

/-- The fixed ordered list `required_sections` (lines 306–312). -/
def requiredSections : List Str :=
  [lc "Company Overview", lc "Business Model & Products",
    lc "Market Position & Competition", lc "Financial Performance",
    lc "Future Outlook"]

/-- The key-normalization of line 332:
`section.lower().replace(' & ', '_').replace(' ', '_')`. -/
def sectionKeyOf (sectionName : Str) : Str :=
  replaceAll (lc " ") (lc "_") (replaceAll (lc " & ") (lc "_") (lowerStr sectionName))

/-- The per-section prompt (f-string of lines 315–322). -/
def sectionPrompt (stock_symbol sectionName formatted_findings : Str) : Str :=
  lc "\n                Create a detailed section on \"" ++ sectionName ++
  lc "\" for " ++ stock_symbol ++
  lc " based on this information:\n                \n                " ++
  formatted_findings ++
  lc "\n                \n                Your response should be a comprehensive analysis focusing specifically on " ++
  lowerStr sectionName ++
  lc ".\n                Write 2-3 paragraphs with detailed information and analysis.\n                "

/-- The executive-summary prompt (f-string of lines 336–346). -/
def execSummaryPrompt (stock_symbol : Str) : Str :=
  lc "\n            Create a concise executive summary (2 paragraphs) for a stock analysis report on " ++
  stock_symbol ++
  lc ".\n            \n            The summary should cover key points about:\n            1. Company overview and business model\n            2. Market position and competitive advantages\n            3. Financial performance highlights\n            4. Future outlook and growth potential\n            \n            Make it informative, balanced, and professional.\n            "

/-- The `for section in required_sections` loop (lines 314–333): one call per
canonical section, each stored under its normalized key with the response
stripped; the keys being pairwise distinct, the dict assignments append in
iteration order. `none` models the exception of a failed call. -/
def synthSectionsLoop (gen : Nat → Str → Option Str)
    (stock_symbol formatted_findings : Str) :
    Nat → List Str → Option (List (Str × Str))
  | _, [] => some []
  | i, sectionName :: rest =>
    match gen i (sectionPrompt stock_symbol sectionName formatted_findings) with
    | none => none
    | some section_content =>
      match synthSectionsLoop gen stock_symbol formatted_findings (i + 1) rest with
      | none => none
      | some tail => some ((sectionKeyOf sectionName, stripStr section_content) :: tail)

/-- The fallback executive summary: the literal of line 375, repeated verbatim
at line 533 of `_create_final_report`. -/
def fallbackExecutiveSummary : Str :=
  lc "NVIDIA Corporation (NVDA) is a leading technology company specializing in graphics processing units (GPUs), artificial intelligence computing, and data center solutions. The company has successfully pivoted from primarily serving the gaming market to becoming a dominant force in AI infrastructure, data centers, and high-performance computing. With strong financial performance, innovative product lines, and strategic positioning in growth markets, NVIDIA continues to demonstrate significant potential despite facing competition and market challenges."

/-- The fallback synthesis built by the `except` branch (lines 372–384). Note
its hard-coded section keys spell the ampersand (`business_model_&_products`),
unlike the normalized keys of the success path. -/
def fallbackSynthesis (stock_symbol now : Str) : Synthesis :=
  { title := stock_symbol ++ lc " Stock Analysis"
    stock_symbol := stock_symbol
    executive_summary := fallbackExecutiveSummary
    sections :=
      [(lc "company_overview",
        lc "NVIDIA Corporation, founded in 1993 and headquartered in Santa Clara, California, has evolved from a graphics chip manufacturer to a comprehensive computing platform company. The company's initial focus on graphics processing units (GPUs) for gaming has expanded to include artificial intelligence, data centers, professional visualization, and automotive markets. Under the leadership of co-founder and CEO Jensen Huang, NVIDIA has pioneered parallel computing architectures and programming models that have transformed computing across multiple industries."),
      (lc "business_model_&_products",
        lc "NVIDIA's business model centers on designing and selling high-performance GPUs, system-on-chip units (SoCs), and complete computing platforms. The company operates through two main segments: Graphics (including GeForce gaming GPUs and professional visualization products) and Compute & Networking (including data center platforms, automotive solutions, and OEM products). NVIDIA complements its hardware offerings with a robust software ecosystem, including CUDA programming platform, specialized libraries, and AI frameworks that enhance the value proposition of its products."),
      (lc "market_position_&_competition",
        lc "NVIDIA holds a dominant position in the GPU market, particularly for high-performance computing and AI applications. The company faces competition from AMD in the gaming GPU space, Intel in data center processors, and various specialized AI chip manufacturers. However, NVIDIA's technical leadership, software ecosystem advantages, and first-mover position in AI computing have maintained its market leadership. The company's GPUs remain the preferred platform for training and running complex AI models, giving it significant influence in the rapidly growing AI infrastructure market."),
      (lc "financial_performance",
        lc "NVIDIA has demonstrated exceptional financial growth, particularly as demand for AI computing infrastructure has accelerated. The company has shown strong revenue expansion, impressive gross margins, and solid profitability metrics. Data center revenue has grown to become NVIDIA's largest segment, reflecting the strategic shift toward AI and high-performance computing markets. The company maintains a strong balance sheet with substantial cash reserves, enabling strategic investments and acquisitions to maintain its technological edge."),
      (lc "future_outlook",
        lc "NVIDIA's future outlook remains positive, driven by several key trends: continued AI adoption across industries, growth in cloud computing and data centers, expanding applications for GPU computing, and opportunities in emerging markets like autonomous vehicles and edge computing. The company's investments in specialized AI architectures, next-generation GPU technologies, and comprehensive software platforms position it well for continued growth. However, NVIDIA faces challenges including intense competition, potential market saturation, and regulatory concerns around semiconductor supply chains and AI technologies.")]
    creation_date := now }

/-- `_synthesize_information(extracted_info, research_plan)`: the five section
calls then the executive-summary call; any failure yields the fallback. -/
def synthesize_information (gen : Nat → Str → Option Str)
    (extracted_info : List (Str × List Finding)) (research_plan : ResearchPlan)
    (now : Str) : Synthesis :=
  let all_findings := (extracted_info.map Prod.snd).flatten
  let formatted_findings := formattedFindings (findingsByTopic all_findings)
  match synthSectionsLoop gen research_plan.stock_symbol formatted_findings 0
      requiredSections with
  | none => fallbackSynthesis research_plan.stock_symbol now
  | some sections =>
    match gen 5 (execSummaryPrompt research_plan.stock_symbol) with
    | none => fallbackSynthesis research_plan.stock_symbol now
    | some exec_text =>
      { title := research_plan.stock_symbol ++ lc " Stock Analysis"
        stock_symbol := research_plan.stock_symbol
        executive_summary := stripStr exec_text
        sections := sections
        creation_date := now }

/-! ## 5. Insight Generator: `_generate_insights` -/

/-- The SWOT prompt (f-string of lines 405–426) as a function of the five
embedded section texts. -/
def swotPrompt (stock_symbol co bm mp fp fo : Str) : Str :=
  lc "\n            Create a detailed SWOT analysis for " ++ stock_symbol ++
  lc " based on the following information. \n            For each category (Strengths, Weaknesses, Opportunities, Threats), provide 4-5 specific points \n            with brief explanations.\n            \n            COMPANY OVERVIEW:\n            " ++
  co ++ lc "\n            \n            BUSINESS MODEL:\n            " ++
  bm ++ lc "\n            \n            MARKET POSITION:\n            " ++
  mp ++ lc "\n            \n            FINANCIAL PERFORMANCE:\n            " ++
  fp ++ lc "\n            \n            FUTURE OUTLOOK:\n            " ++
  fo ++ lc "\n            \n            Format your response with clear headers for each SWOT category and bullet points for each item.\n            "

/-- The SWOT prompt for a given synthesis: the five
`synthesis.get('sections', {}).get(key, '')` lookups of the source, two of
which spell their key with an ampersand. -/
def swotPromptFor (stock_symbol : Str) (synthesis : Synthesis) : Str :=
  swotPrompt stock_symbol
    (dictGetD synthesis.sections (lc "company_overview") [])
    (dictGetD synthesis.sections (lc "business_model_&_products") [])
    (dictGetD synthesis.sections (lc "market_position_&_competition") [])
    (dictGetD synthesis.sections (lc "financial_performance") [])
    (dictGetD synthesis.sections (lc "future_outlook") [])

/-- The investment-considerations prompt (f-string of lines 438–445). -/
def considerationsPrompt (stock_symbol : Str) : Str :=
  lc "\n            Based on the SWOT analysis and company information, provide:\n            1. 3-4 competitive advantages that give " ++
  stock_symbol ++
  lc " a moat\n            2. 3-4 potential growth catalysts for future performance\n            3. 3-4 key risk factors investors should consider\n            \n            For each item, provide a brief explanation of its significance.\n            "

/-- The fallback insights built by the `except` branch (lines 472–521). -/
def fallbackInsights (stock_symbol now : Str) : Insights :=
  { stock_symbol := stock_symbol
    swot_analysis :=
      lc "**Strengths**\n    - Industry-leading GPU technology and architecture\n    - Dominant position in AI and high-performance computing markets\n    - Strong software ecosystem (CUDA) creating high switching costs\n    - Robust financial performance with high gross margins\n    - Visionary leadership under Jensen Huang\n\n    **Weaknesses**\n    - Heavy reliance on semiconductor manufacturing partners\n    - Exposure to cyclical gaming market fluctuations\n    - Product concentration risk with GPU-centric business\n    - High valuation creating expectations for sustained growth\n    - Potential regulatory scrutiny due to market dominance\n\n    **Opportunities**\n    - Expanding AI adoption across industries and applications\n    - Growing data center and cloud computing infrastructure needs\n    - Emerging markets in autonomous vehicles and robotics\n    - Edge computing applications requiring specialized processing\n    - Metaverse and extended reality computing requirements\n\n    **Threats**\n    - Intensifying competition from AMD, Intel, and specialized AI chip startups\n    - Semiconductor supply chain vulnerabilities and geopolitical risks\n    - Potential slowdown in AI infrastructure spending\n    - Technological disruption from new computing architectures\n    - Macroeconomic factors affecting technology investment"
    investment_considerations :=
      lc "**Competitive Advantages**\n    - CUDA software ecosystem creating high switching costs\n    - First-mover advantage in AI acceleration hardware\n    - Superior performance-per-watt metrics compared to competitors\n    - Comprehensive product stack covering multiple market segments\n\n    **Growth Catalysts**\n    - Expansion of generative AI applications requiring more computing power\n    - Increasing adoption of AI by enterprises and cloud providers\n    - Development of specialized chips for emerging workloads\n    - International expansion in data center and AI markets\n\n    **Risk Factors**\n    - Valuation premium requires sustained growth to justify\n    - Increasing competition in AI chip market\n    - Potential cyclicality in AI infrastructure spending\n    - Regulatory risks related to market dominance and trade restrictions"
    generation_date := now }

/-- `_generate_insights(synthesis, stock_symbol)`: the SWOT call then the
considerations call; any failure yields the fallback insights. -/
def generate_insights (gen : Nat → Str → Option Str) (synthesis : Synthesis)
    (stock_symbol now : Str) : Insights :=
  match gen 0 (swotPromptFor stock_symbol synthesis) with
  | none => fallbackInsights stock_symbol now
  | some swot_content =>
    match gen 1 (considerationsPrompt stock_symbol) with
    | none => fallbackInsights stock_symbol now
    | some considerations_content =>
      { stock_symbol := stock_symbol
        swot_analysis := stripStr swot_content
        investment_considerations := stripStr considerations_content
        generation_date := now }

/-! ## 6. Citation Formatter: `_format_citations` -/

/-- The one-line citation of a document (f-string of lines 393–395; the
`.get` defaults never fire on the typed `Doc`, whose fields are all set). -/
def citationOf (document : Doc) : Str :=
  document.source ++ lc ". '" ++ document.topic ++ lc "'. Retrieved on " ++
  document.retrieval_date ++ lc "."

/-- `_format_citations(documents)`: the appending loop of lines 390–396. -/
def format_citations (documents : List Doc) : List Str :=
  documents.foldl (fun citations document => citations ++ [citationOf document]) []

/-! ## 7. Report Assembler: `_create_final_report` -/

/-- One entry of `report["sections"]`: `{title, content}`. -/
structure ReportSection where
  title : Str
  content : Str
  deriving DecidableEq

/-- The terminal report (the `metadata` sub-dict flattened into the
`metadata_`-prefixed fields). -/
structure Report where
  title : Str
  executive_summary : Str
  table_of_contents : List Str
  sections : List (Str × ReportSection)
  metadata_stock_symbol : Str
  metadata_research_date : Str
  metadata_research_plan : ResearchPlan
  metadata_document_count : Nat
  deriving DecidableEq

/-- The agent's instance fields as read by `_create_final_report`. The
`synthesis` and `insights` fields are `Option`s: `none` models the initial
empty dict `{}` (falsy, and without the keys the guards of lines 563, 572 and
579 test for); `some` models a dict that each stage built, which always holds
every key those guards test. -/
structure PipelineState where
  research_plan : ResearchPlan
  documents : List Doc
  extracted_info : List (Str × List Finding)
  synthesis : Option Synthesis
  insights : Option Insights
  citations : List Str
  deriving DecidableEq

/-- The introduction paragraph (f-string of lines 556–559);
`nowMonthYear` models `datetime.now().strftime('%B %Y')`. -/
def introContent (stock_symbol nowMonthYear : Str) : Str :=
  lc "This report provides a comprehensive analysis of " ++ stock_symbol ++
  lc ", based on available information as of " ++ nowMonthYear ++
  lc ". The analysis covers the company's business model, market position, financial performance, and prospects for future growth."

/-- The fixed table of contents (lines 539–549). -/
def tableOfContentsList : List Str :=
  [lc "1. Introduction", lc "2. Company Overview", lc "3. Business Model & Products",
    lc "4. Market Position & Competition", lc "5. Financial Performance",
    lc "6. Future Outlook", lc "7. SWOT Analysis", lc "8. Investment Considerations",
    lc "9. References"]

/-- `_create_final_report()`: a pure merge of the pipeline state — no
generation call is available to it (it takes no `gen`). `now` models
`datetime.now().isoformat()` in the metadata. -/
def create_final_report (st : PipelineState) (now nowMonthYear : Str) : Report :=
  let stock_symbol := st.research_plan.stock_symbol
  let summary0 := match st.synthesis with
    | some synthesis => synthesis.executive_summary
    | none => []
  let executive_summary := if summary0 = [] then fallbackExecutiveSummary else summary0
  let sections0 : List (Str × ReportSection) :=
    dictInsert (lc "introduction")
      { title := lc "Introduction", content := introContent stock_symbol nowMonthYear } []
  let sections1 := match st.synthesis with
    | some synthesis =>
      synthesis.sections.foldl
        (fun acc p =>
          dictInsert p.1
            { title := titleStr (replaceAll (lc "_") (lc " ") p.1), content := p.2 } acc)
        sections0
    | none => sections0
  let sections2 := match st.insights with
    | some insights =>
      dictInsert (lc "swot_analysis")
        { title := lc "SWOT Analysis", content := insights.swot_analysis } sections1
    | none => sections1
  let sections3 := match st.insights with
    | some insights =>
      dictInsert (lc "investment_considerations")
        { title := lc "Investment Considerations",
          content := insights.investment_considerations } sections2
    | none => sections2
  let sections4 :=
    dictInsert (lc "references")
      { title := lc "References",
        content := joinWith (lc "\n") (st.citations.map (fun c => lc "- " ++ c)) }
      sections3
  { title := stock_symbol ++ lc " Stock Analysis Report"
    executive_summary := executive_summary
    table_of_contents := tableOfContentsList
    sections := sections4
    metadata_stock_symbol := stock_symbol
    metadata_research_date := now
    metadata_research_plan := st.research_plan
    metadata_document_count := st.documents.length }

/-! ## The pipeline: `analyze_stock` -/

/-- `analyze_stock` steps 1–6: each stage writes one field of the run state.
`gen s i p` is the response of call `i` of stage `s` to prompt `p` (stages
numbered as in the source's comments: 1 plan, 2 retrieve, 3 extract,
4 synthesize, 5 insights). -/
def runPipeline (gen : Nat → Nat → Str → Option Str) (stock_symbol : Str)
    (focusAreasArg : Option (List Str)) (now : Str) : PipelineState :=
  let research_plan := create_research_plan (gen 1) stock_symbol focusAreasArg now
  let documents := retrieve_information (gen 2) stock_symbol research_plan now
  let extracted_info := extract_information (gen 3) documents research_plan
  let synthesis := synthesize_information (gen 4) extracted_info research_plan now
  let insights := generate_insights (gen 5) synthesis stock_symbol now
  let citations := format_citations documents
  { research_plan := research_plan
    documents := documents
    extracted_info := extracted_info
    synthesis := some synthesis
    insights := some insights
    citations := citations }

/-- `analyze_stock(stock_symbol, focus_areas)`: run the pipeline, then step 7. -/
def analyze_stock (gen : Nat → Nat → Str → Option Str) (stock_symbol : Str)
    (focusAreasArg : Option (List Str)) (now nowMonthYear : Str) : Report :=
  create_final_report (runPipeline gen stock_symbol focusAreasArg now) now nowMonthYear

/-! ## Concrete sample inputs used by counterexamples and witnesses -/

/-- A generation capability answering every call with text holding no bullet
marker. -/
def genNoBullets : Nat → Str → Option Str :=
  fun _ _ => some (lc "The plan covers the overview and the financials of the firm")

/-- A generation capability answering every call with a single bullet line. -/
def genOneBullet : Nat → Str → Option Str :=
  fun _ _ => some (lc "- Overview of the company")

/-- A generation capability whose first call succeeds and whose later calls
fail. -/
def genFailSecond : Nat → Str → Option Str :=
  fun i _ => if i = 0 then some (lc "Detailed text about the first topic") else none

/-- A generation capability answering every call with a fixed narrative. -/
def genAllText : Nat → Str → Option Str :=
  fun _ _ => some (lc "A narrative paragraph about the company.")

/-- A generation capability whose every call fails, at every stage. -/
def genFailAll : Nat → Nat → Str → Option Str := fun _ _ _ => none

/-- A sample plan with two research topics. -/
def planTwoTopics : ResearchPlan :=
  { stock_symbol := lc "NVDA"
    focus_areas := [lc "business model"]
    research_topics := [lc "topic A", lc "topic B"]
    creation_date := lc "2026-10-12" }

/-- A sample plan with seven research topics (more than the Retriever's cap). -/
def planSevenTopics : ResearchPlan :=
  { stock_symbol := lc "NVDA"
    focus_areas := [lc "business model"]
    research_topics := [lc "t1", lc "t2", lc "t3", lc "t4", lc "t5", lc "t6", lc "t7"]
    creation_date := lc "2026-10-12" }

/-! ## Helper lemmas -/

lemma dropWhile_head_false (p : Char → Bool) :
    ∀ (l : Str) (c : Char) (cs : Str), l.dropWhile p = c :: cs → p c = false := by
  intro l
  induction l with
  | nil => intro c cs h; simp [List.dropWhile] at h
  | cons a as ih =>
    intro c cs h
    by_cases hpa : p a = true
    · rw [List.dropWhile_cons_of_pos hpa] at h
      exact ih c cs h
    · rw [List.dropWhile_cons_of_neg hpa] at h
      cases h
      exact Bool.eq_false_iff.mpr hpa

lemma stripStr_reverse (s : Str) :
    (stripStr s).reverse = (s.dropWhile isSpaceChar).reverse.dropWhile isSpaceChar := by
  simp [stripStr]

/-- A stripped line never ends in a space, so a stripped line that starts with
a two-character bullet marker ending in a space has a third character. -/
lemma stripStr_marker_drop2_ne_nil (raw : Str) (c : Char)
    (h : [c, ' '].isPrefixOf (stripStr raw) = true) : (stripStr raw).drop 2 ≠ [] := by
  obtain ⟨t, ht⟩ := List.isPrefixOf_iff_prefix.mp h
  intro hnil
  have hdrop : (stripStr raw).drop 2 = t := by rw [← ht]; simp
  have ht' : stripStr raw = [c, ' '] := by
    rw [← ht, hdrop.symm.trans hnil]; simp
  have hrev : (stripStr raw).reverse = ' ' :: [c] := by rw [ht']; rfl
  have := dropWhile_head_false isSpaceChar
    ((raw.dropWhile isSpaceChar).reverse) ' ' [c] (by rw [← stripStr_reverse, hrev])
  simp [isSpaceChar] at this

lemma plannerBullet_drop2_ne_nil (raw : Str) (h : plannerIsBullet (stripStr raw) = true) :
    (stripStr raw).drop 2 ≠ [] := by
  have hsplit : ((lc "- ").isPrefixOf (stripStr raw) = true) ∨
      ((lc "* ").isPrefixOf (stripStr raw) = true) := by
    simpa [plannerIsBullet, Bool.or_eq_true] using h
  rcases hsplit with h' | h'
  · exact stripStr_marker_drop2_ne_nil raw '-' h'
  · exact stripStr_marker_drop2_ne_nil raw '*' h'

lemma plannerStep_keeps_ne (st : List Str × Str) (l : Str)
    (h : st.1 ≠ [] ∨ st.2 ≠ []) :
    (plannerStep st l).1 ≠ [] ∨ (plannerStep st l).2 ≠ [] := by
  unfold plannerStep
  by_cases hb : plannerIsBullet (stripStr l) = true
  · right
    simpa [hb] using plannerBullet_drop2_ne_nil l hb
  · by_cases hc : stripStr l ≠ [] ∧ st.2 ≠ []
    · right; simp [hb, hc]
    · simpa [hb, hc] using h

lemma plannerStep_bullet_ne (st : List Str × Str) (l : Str)
    (hb : plannerIsBullet (stripStr l) = true) :
    (plannerStep st l).1 ≠ [] ∨ (plannerStep st l).2 ≠ [] := by
  right
  unfold plannerStep
  simpa [hb] using plannerBullet_drop2_ne_nil l hb

lemma foldl_plannerStep_ne :
    ∀ (lines : List Str) (st : List Str × Str),
      ((st.1 ≠ [] ∨ st.2 ≠ []) ∨ ∃ l ∈ lines, plannerIsBullet (stripStr l) = true) →
      ((lines.foldl plannerStep st).1 ≠ [] ∨ (lines.foldl plannerStep st).2 ≠ []) := by
  intro lines
  induction lines with
  | nil =>
    intro st h
    rcases h with h | ⟨l, hl, _⟩
    · exact h
    · cases hl
  | cons a rest ih =>
    intro st h
    rcases h with h | ⟨l, hl, hbul⟩
    · exact ih _ (Or.inl (plannerStep_keeps_ne st a h))
    · rcases List.mem_cons.mp hl with rfl | hmem
      · exact ih _ (Or.inl (plannerStep_bullet_ne st l hbul))
      · exact ih _ (Or.inr ⟨l, hmem, hbul⟩)

/-- A response with at least one bullet line parses to a non-empty topic list. -/
lemma plannerParse_ne_nil (lines : List Str)
    (h : ∃ l ∈ lines, plannerIsBullet (stripStr l) = true) : plannerParse lines ≠ [] := by
  unfold plannerParse
  have hne := foldl_plannerStep_ne lines ([], []) (Or.inr h)
  by_cases hs : (lines.foldl plannerStep ([], [])).2 ≠ []
  · simp [hs]
  · rcases hne with h1 | h2
    · simpa [hs] using h1
    · exact absurd h2 hs

/-- On a line that no parser reads differently — its stripped form does not
start with the Unicode bullet the Extractor alone recognizes, and a bullet
remainder that stripping leaves unchanged — the two loop bodies agree. -/
lemma plannerStep_eq_extractorStep (st : List Str × Str) (l : Str)
    (h1 : (lc "• ").isPrefixOf (stripStr l) = false)
    (h2 : plannerIsBullet (stripStr l) = true →
      stripStr ((stripStr l).drop 2) = (stripStr l).drop 2) :
    plannerStep st l = extractorStep st l := by
  unfold plannerStep extractorStep
  have hbul : extractorIsBullet (stripStr l) = plannerIsBullet (stripStr l) := by
    unfold extractorIsBullet plannerIsBullet
    rw [h1]
    simp
  dsimp only
  rw [hbul]
  by_cases hb : plannerIsBullet (stripStr l) = true
  · simp only [hb, if_true]
    rw [h2 hb]
  · simp [hb]

lemma foldl_plannerStep_eq_extractorStep :
    ∀ (lines : List Str) (st : List Str × Str),
      (∀ l ∈ lines, (lc "• ").isPrefixOf (stripStr l) = false ∧
        (plannerIsBullet (stripStr l) = true →
          stripStr ((stripStr l).drop 2) = (stripStr l).drop 2)) →
      lines.foldl plannerStep st = lines.foldl extractorStep st := by
  intro lines
  induction lines with
  | nil => intro st _; rfl
  | cons a rest ih =>
    intro st h
    have ha := h a (List.mem_cons_self a rest)
    simp only [List.foldl_cons]
    rw [plannerStep_eq_extractorStep st a ha.1 ha.2]
    exact ih _ (fun l hl => h l (List.mem_cons_of_mem a hl))

/-! ### Retriever lemmas -/

lemma retrieveDocs_none_of_exists (gen : Nat → Str → Option Str)
    (stock_symbol now : Str) :
    ∀ (topics : List Str) (start : Nat),
      (∃ j, ∃ hj : j < topics.length,
        gen (start + j) (retrievalPrompt stock_symbol topics[j]) = none) →
      retrieveDocs gen stock_symbol now start topics = none := by
  intro topics
  induction topics with
  | nil =>
    intro start ⟨j, hj, _⟩
    exact absurd hj (by simp)
  | cons t rest ih =>
    intro start ⟨j, hj, hnone⟩
    cases hg : gen start (retrievalPrompt stock_symbol t) with
    | none => simp [retrieveDocs, hg]
    | some content =>
      cases j with
      | zero =>
        rw [Nat.add_zero] at hnone
        simp only [List.getElem_cons_zero] at hnone
        exact absurd hnone (by rw [hg]; exact fun hx => Option.noConfusion hx)
      | succ j' =>
        have hrest : retrieveDocs gen stock_symbol now (start + 1) rest = none := by
          apply ih (start + 1)
          refine ⟨j', by simpa using Nat.lt_of_succ_lt_succ (by simpa using hj), ?_⟩
          rw [show start + 1 + j' = start + (j' + 1) by omega]
          simpa using hnone
        simp [retrieveDocs, hg, hrest]

lemma retrieveDocs_some_of_forall (gen : Nat → Str → Option Str)
    (stock_symbol now : Str) :
    ∀ (topics : List Str) (start : Nat),
      (∀ j (hj : j < topics.length),
        gen (start + j) (retrievalPrompt stock_symbol topics[j]) ≠ none) →
      ∃ docs, retrieveDocs gen stock_symbol now start topics = some docs ∧
        docs.length = topics.length := by
  intro topics
  induction topics with
  | nil => exact fun start _ => ⟨[], rfl, rfl⟩
  | cons t rest ih =>
    intro start h
    cases hg : gen start (retrievalPrompt stock_symbol t) with
    | none =>
      have h0 := h 0 (by simp)
      rw [Nat.add_zero] at h0
      simp only [List.getElem_cons_zero] at h0
      exact absurd hg h0
    | some content =>
      obtain ⟨docs, hd, hlen⟩ := ih (start + 1) (fun j hj => by
        have := h (j + 1) (by simpa using Nat.succ_lt_succ hj)
        rw [show start + (j + 1) = start + 1 + j by omega] at this
        simpa using this)
      refine ⟨Doc.mk (docIdOf stock_symbol (start + 1)) t content
          (lc "Claude Knowledge Base") now :: docs, ?_, by simp [hlen]⟩
      simp [retrieveDocs, hg, hd]

/-! ### Synthesizer lemmas -/

lemma synthSectionsLoop_keys (gen : Nat → Str → Option Str)
    (stock_symbol formatted_findings : Str) (h : ∀ i p, gen i p ≠ none) :
    ∀ (names : List Str) (start : Nat),
      ∃ secs, synthSectionsLoop gen stock_symbol formatted_findings start names =
          some secs ∧
        secs.map Prod.fst = names.map sectionKeyOf := by
  intro names
  induction names with
  | nil => exact fun start => ⟨[], rfl, rfl⟩
  | cons nm rest ih =>
    intro start
    cases hg : gen start (sectionPrompt stock_symbol nm formatted_findings) with
    | none => exact absurd hg (h _ _)
    | some t =>
      obtain ⟨secs, hs, hk⟩ := ih (start + 1)
      exact ⟨(sectionKeyOf nm, stripStr t) :: secs,
        by simp [synthSectionsLoop, hg, hs], by simp [hk]⟩

/-- The success branch of `_synthesize_information` under an all-succeeding
generation capability. -/
lemma synthesize_information_success (gen : Nat → Str → Option Str)
    (extracted_info : List (Str × List Finding)) (research_plan : ResearchPlan)
    (now : Str) (h : ∀ i p, gen i p ≠ none) :
    ∃ secs exec_text,
      (synthesize_information gen extracted_info research_plan now).sections = secs ∧
      secs.map Prod.fst = requiredSections.map sectionKeyOf ∧
      (synthesize_information gen extracted_info research_plan now).executive_summary =
        stripStr exec_text := by
  obtain ⟨secs, hloop, hkeys⟩ := synthSectionsLoop_keys gen research_plan.stock_symbol
    (formattedFindings (findingsByTopic ((extracted_info.map Prod.snd).flatten)))
    h requiredSections 0
  cases hg : gen 5 (execSummaryPrompt research_plan.stock_symbol) with
  | none => exact absurd hg (h _ _)
  | some exec_text =>
    refine ⟨secs, exec_text, ?_, hkeys, ?_⟩ <;>
      simp [synthesize_information, hloop, hg]

/-- Elements of an association list whose keys avoid `k` leave the `.get`
default. -/
lemma dictGetD_eq_default (k : Str) (d : α) :
    ∀ l : List (Str × α), (∀ p ∈ l, p.1 ≠ k) → dictGetD l k d = d := by
  intro l
  induction l with
  | nil => intro _; rfl
  | cons a rest ih =>
    intro h
    have ha := h a (List.mem_cons_self a rest)
    simp only [dictGetD, if_neg ha]
    exact ih (fun p hp => h p (List.mem_cons_of_mem a hp))

/-! ### Dict-insertion lemmas for the assembler -/

lemma dictHasKey_dictInsert_self (k : Str) (v : α) :
    ∀ l : List (Str × α), dictHasKey (dictInsert k v l) k = true := by
  intro l
  induction l with
  | nil => simp [dictInsert, dictHasKey]
  | cons a rest ih =>
    by_cases hk : a.1 = k <;> simp [dictInsert, dictHasKey, hk, ih]

lemma dictHasKey_dictInsert_of (k k' : Str) (v : α) :
    ∀ l : List (Str × α), dictHasKey l k = true →
      dictHasKey (dictInsert k' v l) k = true := by
  intro l
  induction l with
  | nil => intro h; simp [dictHasKey] at h
  | cons a rest ih =>
    obtain ⟨a1, a2⟩ := a
    intro h
    have h' : a1 = k ∨ dictHasKey rest k = true := by
      simpa [dictHasKey] using h
    by_cases hk : a1 = k'
    · rcases h' with ha | hrest
      · have hkk : k' = k := hk.symm.trans ha
        simp [dictInsert, hk, dictHasKey, hkk]
      · simp [dictInsert, hk, dictHasKey, hrest]
    · rcases h' with ha | hrest
      · have hkk : ¬ k = k' := fun hh => hk (ha.trans hh)
        simp [dictInsert, hk, dictHasKey, ha, hkk]
      · simp [dictInsert, hk, dictHasKey, ih hrest]

lemma dictHasKey_foldl_dictInsert {β : Type} (f : β → Str) (g : β → α) (k : Str) :
    ∀ (xs : List β) (acc : List (Str × α)), dictHasKey acc k = true →
      dictHasKey (xs.foldl (fun a p => dictInsert (f p) (g p) a) acc) k = true := by
  intro xs
  induction xs with
  | nil => exact fun acc h => h
  | cons x rest ih =>
    intro acc h
    exact ih _ (dictHasKey_dictInsert_of k (f x) (g x) acc h)

/-! ### Citation lemma -/

lemma foldl_append_citations (documents : List Doc) :
    ∀ acc : List Str,
      documents.foldl (fun citations document => citations ++ [citationOf document]) acc =
        acc ++ documents.map citationOf := by
  induction documents with
  | nil => intro acc; simp
  | cons d rest ih => intro acc; simp [ih]

/-! ## Claim theorems -/

/-- C1 (counterexample): on the success path, a generation response containing
no recognizable bullet marker makes the Planner return a plan whose
`research_topics` list is empty — refuting the claim that the returned plan's
topic list is non-empty for every response. -/
theorem planner_topics_empty_on_bulletless_response :
    (create_research_plan genNoBullets (lc "NVDA") none
      (lc "2026-10-12")).research_topics = [] := by decide

/-- C1 (amended): for every generation capability, subject, focus-area
argument and timestamp, the plan's `research_topics` has length at most the
configured cap of 10; it is non-empty whenever the planning call fails (the
fixed three default topics) or succeeds with a response containing at least
one bullet-marker line. (A successful response without any bullet marker
yields an empty topic list, as the counterexample shows; the fall-back to
focus areas happens in the Retriever, not in the Planner.) -/
theorem planner_topics_capped_and_bullet_nonempty (gen : Nat → Str → Option Str)
    (stock_symbol : Str) (focusAreasArg : Option (List Str)) (now : Str) :
    (create_research_plan gen stock_symbol focusAreasArg now).research_topics.length ≤ 10
    ∧ (∀ response,
        gen 0 (planningPrompt stock_symbol (focusAreasArg.getD defaultFocusAreas)) =
          some response →
        (∃ l ∈ splitOnNL response, plannerIsBullet (stripStr l) = true) →
        (create_research_plan gen stock_symbol focusAreasArg now).research_topics ≠ [])
    ∧ (gen 0 (planningPrompt stock_symbol (focusAreasArg.getD defaultFocusAreas)) =
        none →
        (create_research_plan gen stock_symbol focusAreasArg now).research_topics ≠ []) := by
  cases hg : gen 0 (planningPrompt stock_symbol (focusAreasArg.getD defaultFocusAreas)) with
  | none =>
    refine ⟨?_, ?_, ?_⟩
    · simp [create_research_plan, hg]
    · intro response hr
      exact absurd hr (by simp)
    · intro _
      simp [create_research_plan, hg]
  | some r =>
    refine ⟨?_, ?_, ?_⟩
    · simp only [create_research_plan, hg]
      rw [List.length_take]
      exact min_le_left _ _
    · intro response hr hbul
      obtain rfl : r = response := Option.some.inj hr
      simp only [create_research_plan, hg]
      have hne := plannerParse_ne_nil (splitOnNL r) hbul
      intro hcontra
      rcases List.take_eq_nil_iff.mp hcontra with h10 | hnil
      · exact absurd h10 (by decide)
      · exact hne hnil
    · intro hnone
      exact Option.noConfusion hnone

/-- C1 (witness): at the one-bullet response the amended theorem applies and
gives a non-empty topic list. -/
theorem planner_topics_capped_and_bullet_nonempty_witness :
    (create_research_plan genOneBullet (lc "NVDA") none
      (lc "2026-10-12")).research_topics ≠ [] :=
  (planner_topics_capped_and_bullet_nonempty genOneBullet (lc "NVDA") none
    (lc "2026-10-12")).2.1 (lc "- Overview of the company") rfl
    ⟨lc "- Overview of the company", by decide, by decide⟩

/-- C10: both bullet-accumulation parsers merge a continuation line into the
current bullet: on the input `"- A\ncontinued"` each yields exactly one item,
`"A continued"`, not two. -/
theorem parser_merges_continuation_lines :
    plannerParse (splitOnNL (lc "- A\ncontinued")) = [lc "A continued"] ∧
    extractorParse (splitOnNL (lc "- A\ncontinued")) = [lc "A continued"] := by decide

/-- C3 (counterexample): the Planner's and the Extractor's bullet parsers are
not the same function: on the single line `"• GPU market share"` the Planner
recognizes no bullet prefix and accumulates nothing, while the Extractor
recognizes the Unicode bullet and produces one item. -/
theorem parsers_differ_on_unicode_bullet :
    plannerParse (splitOnNL (lc "• GPU market share")) = [] ∧
    extractorParse (splitOnNL (lc "• GPU market share")) = [lc "GPU market share"] := by
  decide

/-- C3 (amended): the two parsers share the continuation rule but not the
prefix-character set: the Extractor additionally recognizes `'• '` and strips
the remainder of a bullet line. They produce the same accumulated items on
every input none of whose stripped lines starts with `'• '` and in which
stripping leaves each Planner-bullet remainder unchanged. -/
theorem parsers_agree_without_unicode_bullets (lines : List Str)
    (h : ∀ l ∈ lines, (lc "• ").isPrefixOf (stripStr l) = false ∧
      (plannerIsBullet (stripStr l) = true →
        stripStr ((stripStr l).drop 2) = (stripStr l).drop 2)) :
    plannerParse lines = extractorParse lines := by
  unfold plannerParse extractorParse
  rw [foldl_plannerStep_eq_extractorStep lines ([], []) h]

/-- C3 (witness): the amended agreement theorem applied to a concrete
two-line ASCII-bulleted text. -/
theorem parsers_agree_without_unicode_bullets_witness :
    plannerParse (splitOnNL (lc "- Revenue grew strongly\nacross all segments")) =
      extractorParse (splitOnNL (lc "- Revenue grew strongly\nacross all segments")) :=
  parsers_agree_without_unicode_bullets _ (by decide)

/-- C2 (counterexample): per-topic failure isolation does not hold. With a
capability whose call for the first topic succeeds and whose call for the
second fails, the Retriever returns only the single placeholder document:
the successfully retrieved first topic's document is discarded, refuting the
claim that every topic whose call succeeds still yields its document. -/
theorem retriever_discards_succeeded_topic_on_later_failure :
    (genFailSecond 0 (retrievalPrompt (lc "NVDA") (lc "topic A"))).isSome = true ∧
    retrieve_information genFailSecond (lc "NVDA") planTwoTopics (lc "2026-10-12") =
      [fallbackDoc (lc "NVDA") (lc "2026-10-12")] ∧
    (fallbackDoc (lc "NVDA") (lc "2026-10-12")).topic ≠ lc "topic A" :=
  ⟨rfl, by decide, by decide⟩

/-- C2 (amended): the Retriever's `try` wraps the whole topic loop, so any
generation-call failure on any processed topic aborts the entire stage and
replaces the whole result — including documents already retrieved for
earlier topics — with the single placeholder document. -/
theorem retriever_any_failure_yields_placeholder (gen : Nat → Str → Option Str)
    (stock_symbol now : Str) (research_plan : ResearchPlan)
    (h : ∃ j, ∃ hj : j < (effectiveSubtopics research_plan).length,
      gen j (retrievalPrompt stock_symbol (effectiveSubtopics research_plan)[j]) = none) :
    retrieve_information gen stock_symbol research_plan now =
      [fallbackDoc stock_symbol now] := by
  unfold retrieve_information
  rw [retrieveDocs_none_of_exists gen stock_symbol now _ 0 (by simpa using h)]

/-- C2 (witness): the amended theorem applied to the concrete two-topic plan
whose second retrieval call fails. -/
theorem retriever_any_failure_yields_placeholder_witness :
    retrieve_information genFailSecond (lc "NVDA") planTwoTopics (lc "2026-10-12") =
      [fallbackDoc (lc "NVDA") (lc "2026-10-12")] :=
  retriever_any_failure_yields_placeholder genFailSecond (lc "NVDA") (lc "2026-10-12")
    planTwoTopics ⟨1, by decide, by decide⟩

/-- C7: when every processed call succeeds, the Retriever returns exactly one
document per processed topic — the topic list, after the fall-back to focus
areas, sliced to the first 5 — and its output size never exceeds the cap of
5 however many topics the plan contains. -/
theorem retriever_count_eq_processed_topics_capped (gen : Nat → Str → Option Str)
    (stock_symbol now : Str) (research_plan : ResearchPlan)
    (h : ∀ j (hj : j < (effectiveSubtopics research_plan).length),
      gen j (retrievalPrompt stock_symbol (effectiveSubtopics research_plan)[j]) ≠ none) :
    (retrieve_information gen stock_symbol research_plan now).length =
      (effectiveSubtopics research_plan).length ∧
    (retrieve_information gen stock_symbol research_plan now).length ≤ 5 := by
  obtain ⟨docs, hd, hlen⟩ := retrieveDocs_some_of_forall gen stock_symbol now
    (effectiveSubtopics research_plan) 0 (fun j hj => by simpa using h j hj)
  unfold retrieve_information
  rw [hd]
  refine ⟨hlen, ?_⟩
  rw [hlen]
  unfold effectiveSubtopics
  rw [List.length_take]
  exact min_le_left _ _

/-- C7 (witness): the theorem applied to the concrete seven-topic plan with
an all-succeeding capability: exactly 5 documents come back. -/
theorem retriever_count_eq_processed_topics_capped_witness :
    (retrieve_information genAllText (lc "NVDA") planSevenTopics
        (lc "2026-10-12")).length =
      (effectiveSubtopics planSevenTopics).length ∧
    (retrieve_information genAllText (lc "NVDA") planSevenTopics
        (lc "2026-10-12")).length ≤ 5 :=
  retriever_count_eq_processed_topics_capped genAllText (lc "NVDA") (lc "2026-10-12")
    planSevenTopics (fun _ _ hx => Option.noConfusion hx)

/-- C8: the Citation Formatter is a pure, deterministic function of the
document collection (it reads no state and calls no generation capability):
its output is exactly one citation per document, rendered by `citationOf`
from the document's source label, topic and retrieval date, in the
documents' insertion order — so two runs on the same list in the same order
yield the same citations in the same order. -/
theorem format_citations_one_per_document_in_order (documents : List Doc) :
    format_citations documents = documents.map citationOf ∧
    (format_citations documents).length = documents.length := by
  have h := foldl_append_citations documents []
  unfold format_citations
  rw [h]
  simp

/-- C9: for every pipeline state — including one whose synthesis or insights
is the initial empty structure and whose plan, documents and citations are
empty — the Report Assembler (a total function taking no generation
capability) returns a report whose `table_of_contents` is the fixed 9-entry
list and whose `sections` contain at least the keys `"introduction"` and
`"references"`. -/
theorem final_report_fixed_toc_and_required_sections (st : PipelineState)
    (now nowMonthYear : Str) :
    (create_final_report st now nowMonthYear).table_of_contents =
      tableOfContentsList ∧
    (create_final_report st now nowMonthYear).table_of_contents.length = 9 ∧
    dictHasKey (create_final_report st now nowMonthYear).sections
      (lc "introduction") = true ∧
    dictHasKey (create_final_report st now nowMonthYear).sections
      (lc "references") = true := by
  obtain ⟨research_plan, documents, extracted_info, synthesis, insights, citations⟩ := st
  refine ⟨rfl, rfl, ?_, ?_⟩
  · unfold create_final_report
    dsimp only
    apply dictHasKey_dictInsert_of
    cases insights with
    | none =>
      cases synthesis with
      | none => exact dictHasKey_dictInsert_self _ _ _
      | some s =>
        exact dictHasKey_foldl_dictInsert _ _ _ _ _ (dictHasKey_dictInsert_self _ _ _)
    | some i =>
      apply dictHasKey_dictInsert_of
      apply dictHasKey_dictInsert_of
      cases synthesis with
      | none => exact dictHasKey_dictInsert_self _ _ _
      | some s =>
        exact dictHasKey_foldl_dictInsert _ _ _ _ _ (dictHasKey_dictInsert_self _ _ _)
  · unfold create_final_report
    dsimp only
    exact dictHasKey_dictInsert_self _ _ _

/-- C6: on the success path the key under which each canonical section's
narrative is stored is exactly `sectionKeyOf`, the deterministic
normalization of line 332 of the source (lower-case, `' & '` collapsed to
`'_'`, remaining spaces to `'_'`), and those keys evaluate to the five
concrete normalized names. -/
theorem synthesis_section_keys_normalized (gen : Nat → Str → Option Str)
    (extracted_info : List (Str × List Finding)) (research_plan : ResearchPlan)
    (now : Str) (h : ∀ i p, gen i p ≠ none) :
    (synthesize_information gen extracted_info research_plan now).sections.map
        Prod.fst = requiredSections.map sectionKeyOf ∧
    requiredSections.map sectionKeyOf =
      [lc "company_overview", lc "business_model_products",
        lc "market_position_competition", lc "financial_performance",
        lc "future_outlook"] := by
  obtain ⟨secs, exec_text, hsec, hkeys, _⟩ :=
    synthesize_information_success gen extracted_info research_plan now h
  exact ⟨by rw [hsec, hkeys], by decide⟩

/-- C6 (witness): the theorem applied to a concrete all-succeeding
capability, empty extraction and a concrete plan. -/
theorem synthesis_section_keys_normalized_witness :
    (synthesize_information genAllText [] planTwoTopics
        (lc "2026-10-12")).sections.map Prod.fst =
      requiredSections.map sectionKeyOf ∧
    requiredSections.map sectionKeyOf =
      [lc "company_overview", lc "business_model_products",
        lc "market_position_competition", lc "financial_performance",
        lc "future_outlook"] :=
  synthesis_section_keys_normalized genAllText [] planTwoTopics (lc "2026-10-12")
    (fun _ _ hx => Option.noConfusion hx)

/-- C5: in every run whose Synthesizer calls all succeed, no stored section
key contains an ampersand, while `_generate_insights` looks sections up under
the ampersand-spelled keys `business_model_&_products` and
`market_position_&_competition`; those lookups therefore return the
empty-string default, and the SWOT prompt is built with empty text in those
two slots. -/
theorem insight_swot_lookups_empty_on_success (gen : Nat → Str → Option Str)
    (extracted_info : List (Str × List Finding)) (research_plan : ResearchPlan)
    (now : Str) (h : ∀ i p, gen i p ≠ none) :
    (∀ k ∈ (synthesize_information gen extracted_info research_plan now).sections.map
      Prod.fst, '&' ∉ k) ∧
    dictGetD (synthesize_information gen extracted_info research_plan now).sections
      (lc "business_model_&_products") [] = [] ∧
    dictGetD (synthesize_information gen extracted_info research_plan now).sections
      (lc "market_position_&_competition") [] = [] ∧
    swotPromptFor research_plan.stock_symbol
        (synthesize_information gen extracted_info research_plan now) =
      swotPrompt research_plan.stock_symbol
        (dictGetD (synthesize_information gen extracted_info research_plan now).sections
          (lc "company_overview") [])
        [] []
        (dictGetD (synthesize_information gen extracted_info research_plan now).sections
          (lc "financial_performance") [])
        (dictGetD (synthesize_information gen extracted_info research_plan now).sections
          (lc "future_outlook") []) := by
  obtain ⟨secs, exec_text, hsec, hkeys, _⟩ :=
    synthesize_information_success gen extracted_info research_plan now h
  have hkeys5 : secs.map Prod.fst =
      [lc "company_overview", lc "business_model_products",
        lc "market_position_competition", lc "financial_performance",
        lc "future_outlook"] := by
    rw [hkeys]; decide
  have hamp : ∀ k ∈ secs.map Prod.fst, '&' ∉ k := by
    rw [hkeys5]; decide
  have hnot1 : ∀ p ∈ secs, p.1 ≠ lc "business_model_&_products" := by
    intro p hp hcontra
    have hm : p.1 ∈ secs.map Prod.fst := List.mem_map_of_mem _ hp
    rw [hkeys5, hcontra] at hm
    revert hm
    decide
  have hnot2 : ∀ p ∈ secs, p.1 ≠ lc "market_position_&_competition" := by
    intro p hp hcontra
    have hm : p.1 ∈ secs.map Prod.fst := List.mem_map_of_mem _ hp
    rw [hkeys5, hcontra] at hm
    revert hm
    decide
  have hg1 : dictGetD secs (lc "business_model_&_products") [] = [] :=
    dictGetD_eq_default _ _ secs hnot1
  have hg2 : dictGetD secs (lc "market_position_&_competition") [] = [] :=
    dictGetD_eq_default _ _ secs hnot2
  refine ⟨by rw [hsec]; exact hamp, by rw [hsec]; exact hg1, by rw [hsec]; exact hg2, ?_⟩
  unfold swotPromptFor
  rw [hsec, hg1, hg2]

/-- C5 (witness): the theorem applied to a concrete all-succeeding
capability: the ampersand-keyed lookup on the produced synthesis is empty. -/
theorem insight_swot_lookups_empty_on_success_witness :
    dictGetD (synthesize_information genAllText [] planTwoTopics
        (lc "2026-10-12")).sections (lc "business_model_&_products") [] = [] :=
  (insight_swot_lookups_empty_on_success genAllText [] planTwoTopics (lc "2026-10-12")
    (fun _ _ hx => Option.noConfusion hx)).2.1

/-- C4: when every generation call of every stage fails, each stage still
returns its documented fallback shape — the fixed non-empty default topic
list, the single placeholder document, one synthetic finding per document at
the degraded confidence 0.5, the fallback synthesis with non-empty executive
summary and sections, the fallback insights with both narratives non-empty —
and the Report Assembler still produces the complete report shape (fixed
9-entry table of contents, `introduction` and `references` sections) without
failing. -/
theorem pipeline_fallback_shapes_on_total_failure
    (gen : Nat → Nat → Str → Option Str) (stock_symbol : Str)
    (focusAreasArg : Option (List Str)) (now nowMonthYear : Str)
    (h : ∀ s i p, gen s i p = none) :
    (runPipeline gen stock_symbol focusAreasArg now).research_plan.research_topics ≠ []
    ∧ 1 ≤ (runPipeline gen stock_symbol focusAreasArg now).documents.length
    ∧ (runPipeline gen stock_symbol focusAreasArg now).extracted_info ≠ []
    ∧ (∀ pr ∈ (runPipeline gen stock_symbol focusAreasArg now).extracted_info,
        pr.2 ≠ [] ∧ ∀ f ∈ pr.2, f.confidence = 1 / 2)
    ∧ (∃ synthesis, (runPipeline gen stock_symbol focusAreasArg now).synthesis =
          some synthesis ∧
        synthesis.executive_summary ≠ [] ∧ synthesis.sections ≠ [])
    ∧ (∃ insights, (runPipeline gen stock_symbol focusAreasArg now).insights =
          some insights ∧
        insights.swot_analysis ≠ [] ∧ insights.investment_considerations ≠ [])
    ∧ (create_final_report (runPipeline gen stock_symbol focusAreasArg now) now
        nowMonthYear).table_of_contents.length = 9
    ∧ dictHasKey (create_final_report (runPipeline gen stock_symbol focusAreasArg now)
        now nowMonthYear).sections (lc "introduction") = true
    ∧ dictHasKey (create_final_report (runPipeline gen stock_symbol focusAreasArg now)
        now nowMonthYear).sections (lc "references") = true := by
  have hg : gen = fun _ _ _ => none :=
    funext fun s => funext fun i => funext fun p => h s i p
  subst hg
  refine ⟨List.cons_ne_nil _ _, Nat.le.refl, List.cons_ne_nil _ _, ?_, ?_, ?_, rfl,
    rfl, rfl⟩
  · intro pr hpr
    have hx : pr = ((fallbackDoc stock_symbol now).id,
        [{ content := lc "Information about " ++ (fallbackDoc stock_symbol now).topic
           topic := (fallbackDoc stock_symbol now).topic
           source_document := (fallbackDoc stock_symbol now).id
           confidence := 1 / 2 }]) := List.mem_singleton.mp hpr
    subst hx
    refine ⟨List.cons_ne_nil _ _, ?_⟩
    intro f hf
    have hxf := List.mem_singleton.mp hf
    subst hxf
    rfl
  · exact ⟨fallbackSynthesis stock_symbol now, rfl, List.cons_ne_nil _ _,
      List.cons_ne_nil _ _⟩
  · exact ⟨fallbackInsights stock_symbol now, rfl, List.cons_ne_nil _ _,
      List.cons_ne_nil _ _⟩

/-- C4 (witness): two of the fallback-shape conjuncts at the concrete
always-failing capability. -/
theorem pipeline_fallback_shapes_on_total_failure_witness :
    (runPipeline genFailAll (lc "NVDA") none
      (lc "2026-10-12")).research_plan.research_topics ≠ [] ∧
    1 ≤ (runPipeline genFailAll (lc "NVDA") none (lc "2026-10-12")).documents.length :=
  ⟨(pipeline_fallback_shapes_on_total_failure genFailAll (lc "NVDA") none
      (lc "2026-10-12") (lc "October 2026") (fun _ _ _ => rfl)).1,
    (pipeline_fallback_shapes_on_total_failure genFailAll (lc "NVDA") none
      (lc "2026-10-12") (lc "October 2026") (fun _ _ _ => rfl)).2.1⟩
